import Mathlib

/-!
# Verification of the go-multibase encoder (`encoder.go`)

A shallow embedding of the multibase encoder: typed `Encoder` handles, the
name/tag registry, the whole-buffer `Encode` dispatcher, and the streaming
`encoderWriter` (`Write` / `Close`), together with theorems settling the
specification claims.

Go conventions are modelled as follows: a Go `(T, error)` return becomes
`Except MBError T`; a `panic` becomes the `none` branch of an `Option`
result; byte slices and the bytes of Go strings become `List Nat` (each
element `< 256` where it matters); the caller-supplied `io.Writer` sink is a
state `σ` with a write operation `σ → List Nat → Except MBError σ` (an error
result models the sink's `Write` returning a non-nil error; success means
the full slice was accepted).
-/

namespace GoMultibase

/-- Go `type Encoding int`: the multibase identifier, numerically equal to
the code point of its tag character. -/
abbrev Encoding := Int

def Identity : Encoding := 0x00
def Base2 : Encoding := 48      -- '0'
def Base16 : Encoding := 102    -- 'f'
def Base16Upper : Encoding := 70   -- 'F'
def Base32 : Encoding := 98     -- 'b'
def Base32Upper : Encoding := 66   -- 'B'
def Base32pad : Encoding := 99  -- 'c'
def Base32padUpper : Encoding := 67   -- 'C'
def Base32hex : Encoding := 118 -- 'v'
def Base32hexUpper : Encoding := 86   -- 'V'
def Base32hexPad : Encoding := 116 -- 't'
def Base32hexPadUpper : Encoding := 84   -- 'T'
def Base36 : Encoding := 107    -- 'k'
def Base36Upper : Encoding := 75   -- 'K'
def Base58BTC : Encoding := 122 -- 'z'
def Base58Flickr : Encoding := 90  -- 'Z'
def Base64 : Encoding := 109    -- 'm'
def Base64url : Encoding := 117 -- 'u'
def Base64pad : Encoding := 77  -- 'M'
def Base64urlPad : Encoding := 85  -- 'U'
def Base256Emoji : Encoding := 128640 -- the rocket emoji, U+1F680

/-- Modelled from the spec: the identifier → name table `EncodingToStr` lives
in `multibase.go`, which is not among the given source files; it is rebuilt
here from the spec's recognized-tag table (§6), which lists exactly these
21 entries, names being the lowercase hyphenless identifiers. -/
def EncodingToStr (e : Encoding) : Option String :=
  if e = Identity then some "identity"
  else if e = Base2 then some "base2"
  else if e = Base16 then some "base16"
  else if e = Base16Upper then some "base16upper"
  else if e = Base32 then some "base32"
  else if e = Base32Upper then some "base32upper"
  else if e = Base32pad then some "base32pad"
  else if e = Base32padUpper then some "base32padupper"
  else if e = Base32hex then some "base32hex"
  else if e = Base32hexUpper then some "base32hexupper"
  else if e = Base32hexPad then some "base32hexpad"
  else if e = Base32hexPadUpper then some "base32hexpadupper"
  else if e = Base36 then some "base36"
  else if e = Base36Upper then some "base36upper"
  else if e = Base58BTC then some "base58btc"
  else if e = Base58Flickr then some "base58flickr"
  else if e = Base64 then some "base64"
  else if e = Base64url then some "base64url"
  else if e = Base64pad then some "base64pad"
  else if e = Base64urlPad then some "base64urlpad"
  else if e = Base256Emoji then some "base256emoji"
  else none

/-- Modelled from the spec: the name → identifier table `Encodings` from
`multibase.go` (not among the given source files), rebuilt from the spec's
§6 table; it is the inverse of `EncodingToStr` on names. -/
def Encodings (name : String) : Option Encoding :=
  if name = "identity" then some Identity
  else if name = "base2" then some Base2
  else if name = "base16" then some Base16
  else if name = "base16upper" then some Base16Upper
  else if name = "base32" then some Base32
  else if name = "base32upper" then some Base32Upper
  else if name = "base32pad" then some Base32pad
  else if name = "base32padupper" then some Base32padUpper
  else if name = "base32hex" then some Base32hex
  else if name = "base32hexupper" then some Base32hexUpper
  else if name = "base32hexpad" then some Base32hexPad
  else if name = "base32hexpadupper" then some Base32hexPadUpper
  else if name = "base36" then some Base36
  else if name = "base36upper" then some Base36Upper
  else if name = "base58btc" then some Base58BTC
  else if name = "base58flickr" then some Base58Flickr
  else if name = "base64" then some Base64
  else if name = "base64url" then some Base64url
  else if name = "base64pad" then some Base64pad
  else if name = "base64urlpad" then some Base64urlPad
  else if name = "base256emoji" then some Base256Emoji
  else none

/-- The errors the package surfaces, following the spec's taxonomy (§7).
`SinkError` stands for an arbitrary error returned by the caller-supplied
sink's write operation. -/
inductive MBError where
  | EmptyEncodingName : MBError
  | UnsupportedEncoding : String → MBError
  | UnsupportedAsWriter : MBError
  | SinkError : String → MBError
  deriving DecidableEq, Repr

/-- `encoder.go` lines 13-17: a handle holding an encoding identifier. -/
structure Encoder where
  enc : Encoding
  deriving DecidableEq, Repr

/-- `encoder.go` lines 19-26, `NewEncoder`. -/
def NewEncoder (base : Encoding) : Except MBError Encoder :=
  match EncodingToStr base with
  | none => .error (.UnsupportedEncoding (toString base))
  | some _ => .ok ⟨base⟩

/-- `encoder.go` lines 28-36, `MustNewEncoder`; the Go `panic` on an
unregistered identifier is the `none` result. -/
def MustNewEncoder (base : Encoding) : Option Encoder :=
  match EncodingToStr base with
  | none => none
  | some _ => some ⟨base⟩

/-- `encoder.go` lines 38-56, `EncoderByName`. `utf8.RuneCountInString`
counts code points, which are exactly the `Char`s of a Lean `String`, and
`utf8.DecodeRuneInString` yields the first of them. -/
def EncoderByName (str : String) : Except MBError Encoder :=
  match str.data with
  | [] => .error .EmptyEncodingName
  | [r] =>
    match EncodingToStr (Int.ofNat r.toNat) with
    | none => .error (.UnsupportedEncoding str)
    | some _ => .ok ⟨Int.ofNat r.toNat⟩
  | _ :: _ :: _ =>
    match Encodings str with
    | none => .error (.UnsupportedEncoding str)
    | some base => .ok ⟨base⟩

/-- `encoder.go` lines 58-60. -/
def Encoder.Encoding (p : Encoder) : Encoding :=
  p.enc

/-! ## Codec bodies

The base-conversion arithmetic itself is an external collaborator (spec §1:
the per-base codecs are consumed as black boxes exposing
`encode(bytes) -> text`). The power-of-two bases (hex, base2, base32 and
base64 families) follow the standard big-endian bit-regrouping of RFC 4648,
expressed once as `quantumChars`. -/

/-- The big-endian base-2^bpc digits of a byte string: the `8 * bs.length`
bits of `bs`, grouped into `bpc`-bit characters from the left, the final
character zero-filled on the right (RFC 4648 regrouping). -/
def quantumChars (bpc : Nat) (bs : List Nat) : List Nat :=
  let nbits := 8 * bs.length
  let nchars := (nbits + bpc - 1) / bpc
  let v := (bs.foldl (fun a b => a * 256 + b % 256) 0) <<< (nchars * bpc - nbits)
  (List.range nchars).map (fun i => (v >>> ((nchars - 1 - i) * bpc)) &&& (2 ^ bpc - 1))

/-- Digit-to-byte translation through an alphabet given as its byte list. -/
def alphaMap (alpha : List Nat) (i : Nat) : Nat :=
  alpha.getD i 0

def hexLowerAlpha : List Nat := "0123456789abcdef".data.map Char.toNat
def hexUpperAlpha : List Nat := "0123456789ABCDEF".data.map Char.toNat
def base2Alpha : List Nat := "01".data.map Char.toNat
def b32StdLowerAlpha : List Nat := "abcdefghijklmnopqrstuvwxyz234567".data.map Char.toNat
def b32StdUpperAlpha : List Nat := "ABCDEFGHIJKLMNOPQRSTUVWXYZ234567".data.map Char.toNat
def b32HexLowerAlpha : List Nat := "0123456789abcdefghijklmnopqrstuv".data.map Char.toNat
def b32HexUpperAlpha : List Nat := "0123456789ABCDEFGHIJKLMNOPQRSTUV".data.map Char.toNat
def b64StdAlpha : List Nat :=
  "ABCDEFGHIJKLMNOPQRSTUVWXYZabcdefghijklmnopqrstuvwxyz0123456789+/".data.map Char.toNat
def b64UrlAlpha : List Nat :=
  "ABCDEFGHIJKLMNOPQRSTUVWXYZabcdefghijklmnopqrstuvwxyz0123456789-_".data.map Char.toNat

/-- The byte 0x3D, the padding character. -/
def padByte : Nat := 61

/-- RFC 4648 whole-buffer encoding with `bpc` bits per character: regrouped
digits through `alpha`, padded with the pad character up to a multiple of
the output group size `grp` when `pad` is set. -/
def rfc4648Encode (bpc grp : Nat) (alpha : List Nat) (pad : Bool)
    (data : List Nat) : List Nat :=
  let chars := (quantumChars bpc data).map (alphaMap alpha)
  chars ++ List.replicate (if pad then (grp - chars.length % grp) % grp else 0) padByte

/-- UTF-8 bytes of the code point `c` (the multibase tag is prepended as a
character of the output text, hence as its UTF-8 bytes). -/
def utf8Bytes (c : Nat) : List Nat :=
  if c < 0x80 then [c]
  else if c < 0x800 then [0xC0 ||| (c >>> 6), 0x80 ||| (c &&& 63)]
  else if c < 0x10000 then
    [0xE0 ||| (c >>> 12), 0x80 ||| ((c >>> 6) &&& 63), 0x80 ||| (c &&& 63)]
  else
    [0xF0 ||| (c >>> 18), 0x80 ||| ((c >>> 12) &&& 63),
     0x80 ||| ((c >>> 6) &&& 63), 0x80 ||| (c &&& 63)]

/-- Modelled from the spec: the per-identifier whole-buffer codec bodies used
by the dispatcher `Encode` of `multibase.go`, which is not among the given
source files. Identity, hex, base2 and the base32/base64 families follow the
standard alphabet and padding rules named in spec §6; the big-integer bases
(base36, base58) and base256emoji are declared out of scope by spec §1
("consumed as black boxes") and are modelled as total functions whose exact
digits no claim inspects — the identity on bytes stands in for them. -/
def codecBody (base : Encoding) (data : List Nat) : List Nat :=
  if base = Identity then data
  else if base = Base16 then rfc4648Encode 4 1 hexLowerAlpha false data
  else if base = Base16Upper then rfc4648Encode 4 1 hexUpperAlpha false data
  else if base = Base2 then rfc4648Encode 1 1 base2Alpha false data
  else if base = Base32 then rfc4648Encode 5 8 b32StdLowerAlpha false data
  else if base = Base32Upper then rfc4648Encode 5 8 b32StdUpperAlpha false data
  else if base = Base32pad then rfc4648Encode 5 8 b32StdLowerAlpha true data
  else if base = Base32padUpper then rfc4648Encode 5 8 b32StdUpperAlpha true data
  else if base = Base32hex then rfc4648Encode 5 8 b32HexLowerAlpha false data
  else if base = Base32hexUpper then rfc4648Encode 5 8 b32HexUpperAlpha false data
  else if base = Base32hexPad then rfc4648Encode 5 8 b32HexLowerAlpha true data
  else if base = Base32hexPadUpper then rfc4648Encode 5 8 b32HexUpperAlpha true data
  else if base = Base64 then rfc4648Encode 6 4 b64StdAlpha false data
  else if base = Base64pad then rfc4648Encode 6 4 b64StdAlpha true data
  else if base = Base64url then rfc4648Encode 6 4 b64UrlAlpha false data
  else if base = Base64urlPad then rfc4648Encode 6 4 b64UrlAlpha true data
  else data

/-- Modelled from the spec: the whole-buffer dispatcher `Encode` of
`multibase.go` (§4.3), not among the given source files: it fails with
`UnsupportedEncoding` when the identifier is not registered, and otherwise
returns the tag character followed by the codec's text body, as bytes. -/
def Encode (base : Encoding) (data : List Nat) : Except MBError (List Nat) :=
  match EncodingToStr base with
  | none => .error (.UnsupportedEncoding (toString base))
  | some _ => .ok (utf8Bytes base.toNat ++ codecBody base data)

/-- `encoder.go` lines 62-70, the handle's `Encode`: it delegates to the
dispatcher and panics (the `none` result) on an internal error instead of
returning it — its Go return type is a plain `string` with no error. -/
def Encoder.Encode (p : Encoder) (data : List Nat) : Option (List Nat) :=
  match GoMultibase.Encode p.enc data with
  | .error _ => none
  | .ok str => some str

/-! ## Streaming writer

`encoderWriter` wraps a caller-supplied sink. The incremental codec adapters
(`hex.NewEncoder`, `b32.NewEncoder`, `base64.NewEncoder`) are external
collaborators (spec §1); what the writer stores of them is which codec was
chosen (fixed at construction) plus the adapter's buffered input bytes,
which live on the heap behind the `processor` interface value. -/

/-- The incremental codec adapter chosen at `newEncoderWriter` time:
`identProc` is the sink itself (the `Identity` case pipes bytes through
unchanged), `hexProc` is `hex.NewEncoder`, and the base32/base64 adapters
carry their alphabet and padding flag. -/
inductive ProcKind where
  | identProc : ProcKind
  | hexProc : ProcKind
  | b32proc : List Nat → Bool → ProcKind
  | b64proc : List Nat → Bool → ProcKind
  deriving DecidableEq, Repr

/-- `encoder.go` lines 79-84: the struct fields. The adapter's mutable
buffer is heap state behind the interface value and is kept separately in
`WriterHeap`. -/
structure encoderWriter where
  enc : Encoding
  headerWritten : Bool
  processor : Option ProcKind
  deriving DecidableEq, Repr

/-- The `switch enc` of `encoder.go` lines 93-125: which adapter each
encoding gets; the seven cases of line 123 and every unlisted encoding leave
`processor` nil. -/
def procFor (enc : Encoding) : Option ProcKind :=
  if enc = Identity then some .identProc
  else if enc = Base16 then some .hexProc
  else if enc = Base32 then some (.b32proc b32StdLowerAlpha false)
  else if enc = Base32Upper then some (.b32proc b32StdUpperAlpha false)
  else if enc = Base32hex then some (.b32proc b32HexLowerAlpha false)
  else if enc = Base32hexUpper then some (.b32proc b32HexUpperAlpha false)
  else if enc = Base32pad then some (.b32proc b32StdLowerAlpha true)
  else if enc = Base32padUpper then some (.b32proc b32StdUpperAlpha true)
  else if enc = Base32hexPad then some (.b32proc b32HexLowerAlpha true)
  else if enc = Base32hexPadUpper then some (.b32proc b32HexUpperAlpha true)
  else if enc = Base64pad then some (.b64proc b64StdAlpha true)
  else if enc = Base64urlPad then some (.b64proc b64UrlAlpha true)
  else if enc = Base64url then some (.b64proc b64UrlAlpha false)
  else if enc = Base64 then some (.b64proc b64StdAlpha false)
  else none

/-- The reachable heap of one writer: the pointed-to `encoderWriter` struct,
the chosen adapter's buffered input bytes, and the sink state. -/
structure WriterHeap (σ : Type) where
  ew : encoderWriter
  procBuf : List Nat
  sink : σ
  deriving Repr

/-- `encoder.go` lines 86-132, `newEncoderWriter`. -/
def newEncoderWriter {σ : Type} (enc : Encoding) (out : σ) : WriterHeap σ :=
  { ew := { enc := enc, headerWritten := false, processor := procFor enc },
    procBuf := [], sink := out }

/-- Go `byte(ew.enc)`: truncation of the identifier to its low 8 bits. -/
def goByte (e : Encoding) : Nat :=
  (e % 256).toNat

/-- Modelled from the spec: one `Write` on the incremental codec adapter
(spec §4.4: encoded output may be buffered internally by the codec across
calls). Given the buffered and the new input bytes it returns the bytes
emitted to the sink and the new buffer: identity and hex emit everything at
once; base32/base64 emit full 5- resp. 3-byte input groups and buffer the
remainder. -/
def procWrite (k : ProcKind) (buf p : List Nat) : List Nat × List Nat :=
  match k with
  | .identProc => (p, buf)
  | .hexProc => ((quantumChars 4 p).map (alphaMap hexLowerAlpha), buf)
  | .b32proc alpha _ =>
    let all := buf ++ p
    let nfull := all.length / 5 * 5
    ((quantumChars 5 (all.take nfull)).map (alphaMap alpha), all.drop nfull)
  | .b64proc alpha _ =>
    let all := buf ++ p
    let nfull := all.length / 3 * 3
    ((quantumChars 6 (all.take nfull)).map (alphaMap alpha), all.drop nfull)

/-- Whether the adapter implements `io.Closer`: the base32/base64 encoders
do; `hex.NewEncoder` returns a plain `io.Writer`, and the `Identity` case
stores the sink itself, modelled here as a plain writer without `Close`. -/
def hasCloser : ProcKind → Bool
  | .identProc => false
  | .hexProc => false
  | .b32proc _ _ => true
  | .b64proc _ _ => true

/-- Modelled from the spec: the final bytes the adapter's `Close` flushes
for the buffered partial input group, padded where the variant pads. -/
def procCloseBytes (k : ProcKind) (buf : List Nat) : List Nat :=
  match k with
  | .identProc => []
  | .hexProc => []
  | .b32proc alpha pad => rfc4648Encode 5 8 alpha pad buf
  | .b64proc alpha pad => rfc4648Encode 6 4 alpha pad buf

/-- Modelled from the spec: the adapter's `Close` operation — it flushes the
buffered partial group as final encoded output to the sink; with an empty
buffer it writes nothing and returns nil. -/
def procCloseOp {σ : Type} (wr : σ → List Nat → Except MBError σ)
    (k : ProcKind) (h : WriterHeap σ) : Option MBError × WriterHeap σ :=
  if h.procBuf = [] then (none, h)
  else
    match wr h.sink (procCloseBytes k h.procBuf) with
    | .error e => (some e, { h with procBuf := [] })
    | .ok s1 => (none, { h with sink := s1, procBuf := [] })

/-- `encoder.go` lines 134-146, `encoderWriter.Write`, called through the
`io.WriteCloser` interface holding the `*encoderWriter`. The method is
declared with a VALUE receiver (`func (ew encoderWriter) Write`), so the
body runs on a copy of the pointed-to struct: the assignment
`ew.headerWritten = true` at line 143 mutates only that copy and is
discarded when the call returns. Only effects reaching the heap through the
`out` and `processor` references persist, which is why the returned heap
keeps `h.ew` (and in particular its `headerWritten` field) unchanged. -/
def encoderWriter.WriteCall {σ : Type} (wr : σ → List Nat → Except MBError σ)
    (h : WriterHeap σ) (p : List Nat) : (Int × Option MBError) × WriterHeap σ :=
  let ew := h.ew
  match ew.processor with
  | none => ((-1, some .UnsupportedAsWriter), h)
  | some k =>
    let headerStep : Except MBError (WriterHeap σ) :=
      if ew.headerWritten then .ok h
      else
        match wr h.sink [goByte ew.enc] with
        | .error e => .error e
        | .ok s1 => .ok { h with sink := s1 }
    match headerStep with
    | .error e => ((0, some e), h)
    | .ok h1 =>
      let emitted := procWrite k h1.procBuf p
      match wr h1.sink emitted.1 with
      | .error e => ((0, some e), { h1 with procBuf := emitted.2 })
      | .ok s2 => ((Int.ofNat p.length, none), { h1 with sink := s2, procBuf := emitted.2 })

/-- `encoder.go` lines 148-153, `encoderWriter.Close`: the
`ew.processor.(io.Closer)` type assertion succeeds exactly for the adapters
with a `Close`, which is then invoked; otherwise (including the nil
processor of the unsupported encodings) it returns nil untouched. -/
def encoderWriter.CloseCall {σ : Type} (wr : σ → List Nat → Except MBError σ)
    (h : WriterHeap σ) : Option MBError × WriterHeap σ :=
  match h.ew.processor with
  | none => (none, h)
  | some k => if hasCloser k then procCloseOp wr k h else (none, h)

/-- The plain pure sink: a byte accumulator that never fails. -/
def listSink : List Nat → List Nat → Except MBError (List Nat) :=
  fun s p => .ok (s ++ p)

/-! ## Theorems -/

/-- Helper: every identifier in the name table is also in the identifier
table (both registry tables enumerate the same 21 variants, spec 4.1). -/
theorem encodings_registered (name : String) (b : Encoding)
    (h : Encodings name = some b) : (EncodingToStr b).isSome = true := by
  unfold Encodings at h
  by_cases h1 : name = "identity"
  · rw [if_pos h1] at h; injection h with h2; subst h2; decide
  rw [if_neg h1] at h
  by_cases h2 : name = "base2"
  · rw [if_pos h2] at h; injection h with h2; subst h2; decide
  rw [if_neg h2] at h
  by_cases h3 : name = "base16"
  · rw [if_pos h3] at h; injection h with h2; subst h2; decide
  rw [if_neg h3] at h
  by_cases h4 : name = "base16upper"
  · rw [if_pos h4] at h; injection h with h2; subst h2; decide
  rw [if_neg h4] at h
  by_cases h5 : name = "base32"
  · rw [if_pos h5] at h; injection h with h2; subst h2; decide
  rw [if_neg h5] at h
  by_cases h6 : name = "base32upper"
  · rw [if_pos h6] at h; injection h with h2; subst h2; decide
  rw [if_neg h6] at h
  by_cases h7 : name = "base32pad"
  · rw [if_pos h7] at h; injection h with h2; subst h2; decide
  rw [if_neg h7] at h
  by_cases h8 : name = "base32padupper"
  · rw [if_pos h8] at h; injection h with h2; subst h2; decide
  rw [if_neg h8] at h
  by_cases h9 : name = "base32hex"
  · rw [if_pos h9] at h; injection h with h2; subst h2; decide
  rw [if_neg h9] at h
  by_cases h10 : name = "base32hexupper"
  · rw [if_pos h10] at h; injection h with h2; subst h2; decide
  rw [if_neg h10] at h
  by_cases h11 : name = "base32hexpad"
  · rw [if_pos h11] at h; injection h with h2; subst h2; decide
  rw [if_neg h11] at h
  by_cases h12 : name = "base32hexpadupper"
  · rw [if_pos h12] at h; injection h with h2; subst h2; decide
  rw [if_neg h12] at h
  by_cases h13 : name = "base36"
  · rw [if_pos h13] at h; injection h with h2; subst h2; decide
  rw [if_neg h13] at h
  by_cases h14 : name = "base36upper"
  · rw [if_pos h14] at h; injection h with h2; subst h2; decide
  rw [if_neg h14] at h
  by_cases h15 : name = "base58btc"
  · rw [if_pos h15] at h; injection h with h2; subst h2; decide
  rw [if_neg h15] at h
  by_cases h16 : name = "base58flickr"
  · rw [if_pos h16] at h; injection h with h2; subst h2; decide
  rw [if_neg h16] at h
  by_cases h17 : name = "base64"
  · rw [if_pos h17] at h; injection h with h2; subst h2; decide
  rw [if_neg h17] at h
  by_cases h18 : name = "base64url"
  · rw [if_pos h18] at h; injection h with h2; subst h2; decide
  rw [if_neg h18] at h
  by_cases h19 : name = "base64pad"
  · rw [if_pos h19] at h; injection h with h2; subst h2; decide
  rw [if_neg h19] at h
  by_cases h20 : name = "base64urlpad"
  · rw [if_pos h20] at h; injection h with h2; subst h2; decide
  rw [if_neg h20] at h
  by_cases h21 : name = "base256emoji"
  · rw [if_pos h21] at h; injection h with h2; subst h2; decide
  rw [if_neg h21] at h
  exact Option.noConfusion h

/-- Helper: membership in the identifier table means being one of the 21
registered encodings. -/
theorem registered_cases (enc : Encoding) (v : String)
    (h : EncodingToStr enc = some v) :
    enc = Identity ∨
    enc = Base2 ∨
    enc = Base16 ∨
    enc = Base16Upper ∨
    enc = Base32 ∨
    enc = Base32Upper ∨
    enc = Base32pad ∨
    enc = Base32padUpper ∨
    enc = Base32hex ∨
    enc = Base32hexUpper ∨
    enc = Base32hexPad ∨
    enc = Base32hexPadUpper ∨
    enc = Base36 ∨
    enc = Base36Upper ∨
    enc = Base58BTC ∨
    enc = Base58Flickr ∨
    enc = Base64 ∨
    enc = Base64url ∨
    enc = Base64pad ∨
    enc = Base64urlPad ∨
    enc = Base256Emoji := by
  unfold EncodingToStr at h
  by_cases h1 : enc = Identity
  · subst h1; decide
  rw [if_neg h1] at h
  by_cases h2 : enc = Base2
  · subst h2; decide
  rw [if_neg h2] at h
  by_cases h3 : enc = Base16
  · subst h3; decide
  rw [if_neg h3] at h
  by_cases h4 : enc = Base16Upper
  · subst h4; decide
  rw [if_neg h4] at h
  by_cases h5 : enc = Base32
  · subst h5; decide
  rw [if_neg h5] at h
  by_cases h6 : enc = Base32Upper
  · subst h6; decide
  rw [if_neg h6] at h
  by_cases h7 : enc = Base32pad
  · subst h7; decide
  rw [if_neg h7] at h
  by_cases h8 : enc = Base32padUpper
  · subst h8; decide
  rw [if_neg h8] at h
  by_cases h9 : enc = Base32hex
  · subst h9; decide
  rw [if_neg h9] at h
  by_cases h10 : enc = Base32hexUpper
  · subst h10; decide
  rw [if_neg h10] at h
  by_cases h11 : enc = Base32hexPad
  · subst h11; decide
  rw [if_neg h11] at h
  by_cases h12 : enc = Base32hexPadUpper
  · subst h12; decide
  rw [if_neg h12] at h
  by_cases h13 : enc = Base36
  · subst h13; decide
  rw [if_neg h13] at h
  by_cases h14 : enc = Base36Upper
  · subst h14; decide
  rw [if_neg h14] at h
  by_cases h15 : enc = Base58BTC
  · subst h15; decide
  rw [if_neg h15] at h
  by_cases h16 : enc = Base58Flickr
  · subst h16; decide
  rw [if_neg h16] at h
  by_cases h17 : enc = Base64
  · subst h17; decide
  rw [if_neg h17] at h
  by_cases h18 : enc = Base64url
  · subst h18; decide
  rw [if_neg h18] at h
  by_cases h19 : enc = Base64pad
  · subst h19; decide
  rw [if_neg h19] at h
  by_cases h20 : enc = Base64urlPad
  · subst h20; decide
  rw [if_neg h20] at h
  by_cases h21 : enc = Base256Emoji
  · subst h21; decide
  rw [if_neg h21] at h
  exact Option.noConfusion h

/-- Claim C4: EncoderByName fails with EmptyEncodingName on the empty
string; a string of exactly one code point is resolved as a tag in the
registry; a longer string is resolved as a human-readable name; it fails
with UnsupportedEncoding when the tag or name is not registered; "b" and
"base32" yield handles holding the same identifier. -/
theorem encoderByName_resolution (s : String) :
    (s = "" → EncoderByName s = .error .EmptyEncodingName) ∧
    (∀ c : Char, s.data = [c] →
      ((∃ n, EncodingToStr (Int.ofNat c.toNat) = some n) →
        EncoderByName s = .ok ⟨Int.ofNat c.toNat⟩) ∧
      (EncodingToStr (Int.ofNat c.toNat) = none →
        EncoderByName s = .error (.UnsupportedEncoding s))) ∧
    (2 ≤ s.data.length →
      (∀ b, Encodings s = some b → EncoderByName s = .ok ⟨b⟩) ∧
      (Encodings s = none → EncoderByName s = .error (.UnsupportedEncoding s))) ∧
    EncoderByName "b" = .ok ⟨Base32⟩ ∧ EncoderByName "base32" = .ok ⟨Base32⟩ := by
  refine ⟨?_, ?_, ?_, rfl, rfl⟩
  · rintro rfl; rfl
  · intro c hc
    constructor
    · rintro ⟨n, hn⟩
      unfold EncoderByName
      rw [hc]
      split
      next heq => exact absurd heq (by simp)
      next r heq =>
        injection heq with hcr htl
        subst hcr
        simp only [hn]
      next a b t heq => exact absurd heq (by simp)
    · intro hn
      unfold EncoderByName
      rw [hc]
      split
      next heq => exact absurd heq (by simp)
      next r heq =>
        injection heq with hcr htl
        subst hcr
        simp only [hn]
      next a b t heq => exact absurd heq (by simp)
  · intro h2
    constructor
    · intro b hb
      unfold EncoderByName
      split
      next heq => rw [heq] at h2; simp at h2
      next r heq => rw [heq] at h2; simp at h2
      next a c t heq => simp only [hb]
    · intro hb
      unfold EncoderByName
      split
      next heq => rw [heq] at h2; simp at h2
      next r heq => rw [heq] at h2; simp at h2
      next a c t heq => simp only [hb]

/-- Witness for C4: the resolution theorem applied at "", "z", "?", "nope",
"b" and "base32". -/
theorem encoderByName_resolution_witness :
    EncoderByName "" = .error .EmptyEncodingName ∧
    EncoderByName "z" = .ok ⟨Base58BTC⟩ ∧
    EncoderByName "?" = .error (.UnsupportedEncoding "?") ∧
    EncoderByName "nope" = .error (.UnsupportedEncoding "nope") ∧
    EncoderByName "b" = .ok ⟨Base32⟩ ∧ EncoderByName "base32" = .ok ⟨Base32⟩ := by
  refine ⟨(encoderByName_resolution "").1 rfl, ?_, ?_, ?_,
         (encoderByName_resolution "b").2.2.2.1,
         (encoderByName_resolution "base32").2.2.2.2⟩
  · exact ((encoderByName_resolution "z").2.1 'z' rfl).1 ⟨"base58btc", rfl⟩
  · exact ((encoderByName_resolution "?").2.1 '?' rfl).2 rfl
  · exact ((encoderByName_resolution "nope").2.2.1 (by decide)).2 rfl

/-- Claim C5: NewEncoder fails with UnsupportedEncoding exactly when the
identifier is absent from the registry's identifier table, and otherwise
returns a handle whose Encoding() equals the given identifier. -/
theorem newEncoder_validates (base : Encoding) :
    ((∃ m, NewEncoder base = .error (.UnsupportedEncoding m)) ↔ EncodingToStr base = none) ∧
    (∀ e : Encoder, NewEncoder base = .ok e → e.Encoding = base) := by
  unfold NewEncoder
  cases h : EncodingToStr base <;> simp [Encoder.Encoding]

/-- Witness for C5: an unregistered identifier (1) is rejected and a
registered one (base32) keeps its identifier. -/
theorem newEncoder_validates_witness :
    (∃ m, NewEncoder 1 = .error (.UnsupportedEncoding m)) ∧
    Encoder.Encoding ⟨Base32⟩ = Base32 :=
  ⟨(newEncoder_validates 1).1.mpr rfl, (newEncoder_validates Base32).2 ⟨Base32⟩ rfl⟩

/-- Claim C7: MustNewEncoder performs the same registry-membership
validation as NewEncoder — it returns the same handle exactly when
NewEncoder succeeds — and on an unregistered identifier it panics (the
none result) instead of returning a recoverable error. -/
theorem mustNewEncoder_matches_newEncoder (base : Encoding) :
    (∀ e : Encoder, MustNewEncoder base = some e ↔ NewEncoder base = .ok e) ∧
    (MustNewEncoder base = none ↔ EncodingToStr base = none) := by
  unfold MustNewEncoder NewEncoder
  cases h : EncodingToStr base <;> simp

/-- Witness for C7 at base32 (registered) and 1 (unregistered). -/
theorem mustNewEncoder_matches_newEncoder_witness :
    MustNewEncoder Base32 = some ⟨Base32⟩ ∧ MustNewEncoder 1 = none :=
  ⟨((mustNewEncoder_matches_newEncoder Base32).1 ⟨Base32⟩).mpr rfl,
   (mustNewEncoder_matches_newEncoder 1).2.mpr rfl⟩



/-- Helper: a handle returned by `EncoderByName` holds a registered
identifier. -/
theorem encoderByName_membership (s : String) (e : Encoder)
    (h : EncoderByName s = .ok e) : (EncodingToStr e.enc).isSome = true := by
  unfold EncoderByName at h
  split at h
  · exact Except.noConfusion h
  · rename_i r heq
    cases hq : EncodingToStr (Int.ofNat r.toNat) with
    | none =>
      rw [hq] at h
      exact Except.noConfusion h
    | some v =>
      rw [hq] at h
      have he : e = ⟨Int.ofNat r.toNat⟩ := by
        cases h
        rfl
      rw [he]
      show (EncodingToStr (Int.ofNat r.toNat)).isSome = true
      rw [hq]
      rfl
  · cases hq : Encodings s with
    | none =>
      rw [hq] at h
      exact Except.noConfusion h
    | some b =>
      rw [hq] at h
      have he : e = ⟨b⟩ := by
        cases h
        rfl
      rw [he]
      show (EncodingToStr b).isSome = true
      exact encodings_registered s b hq

/-- Claim C6: a handle constructed through a validating factory (NewEncoder,
MustNewEncoder, or a successful EncoderByName) holds a registered
identifier, so the dispatcher succeeds on every buffer: Encoder.Encode
never takes its internal error branch — the panic (the none result) is
unreachable and no error is ever returned or swallowed. -/
theorem validated_encode_never_panics (base : Encoding) (e : Encoder) (data : List Nat)
    (hval : NewEncoder base = .ok e ∨ MustNewEncoder base = some e ∨
            ∃ s, EncoderByName s = .ok e) :
    GoMultibase.Encode e.enc data = .ok (utf8Bytes e.enc.toNat ++ codecBody e.enc data) ∧
    Encoder.Encode e data = some (utf8Bytes e.enc.toNat ++ codecBody e.enc data) := by
  have hreg : (EncodingToStr e.enc).isSome = true := by
    rcases hval with hv | hv | ⟨s, hv⟩
    · unfold NewEncoder at hv
      cases hq : EncodingToStr base with
      | none =>
        rw [hq] at hv
        exact Except.noConfusion hv
      | some v =>
        rw [hq] at hv
        have he : e = ⟨base⟩ := by
          cases hv
          rfl
        rw [he]
        show (EncodingToStr base).isSome = true
        rw [hq]
        rfl
    · unfold MustNewEncoder at hv
      cases hq : EncodingToStr base with
      | none =>
        rw [hq] at hv
        exact Option.noConfusion hv
      | some v =>
        rw [hq] at hv
        have he : e = ⟨base⟩ := by
          cases hv
          rfl
        rw [he]
        show (EncodingToStr base).isSome = true
        rw [hq]
        rfl
    · exact encoderByName_membership s e hv
  obtain ⟨v, hv⟩ := Option.isSome_iff_exists.mp hreg
  constructor
  · unfold GoMultibase.Encode
    rw [hv]
  · unfold Encoder.Encode GoMultibase.Encode
    rw [hv]

/-- Witness for C6: the base32 handle from NewEncoder, encoding [1,2,3]. -/
theorem validated_encode_never_panics_witness :
    GoMultibase.Encode (Encoder.mk Base32).enc [1, 2, 3] =
      .ok (utf8Bytes (Encoder.mk Base32).enc.toNat ++
           codecBody (Encoder.mk Base32).enc [1, 2, 3]) ∧
    Encoder.Encode ⟨Base32⟩ [1, 2, 3] =
      some (utf8Bytes (Encoder.mk Base32).enc.toNat ++
            codecBody (Encoder.mk Base32).enc [1, 2, 3]) :=
  validated_encode_never_panics Base32 ⟨Base32⟩ [1, 2, 3] (Or.inl rfl)

/-- Claim C3: for each of the seven non-streamable encodings the constructed
writer has a nil processor, so Write returns the UnsupportedAsWriter error
(with count -1) for any payload and any sink, leaving the whole heap —
sink included — untouched: neither the tag nor any payload byte is ever
written. -/
theorem nonstreamable_write_rejected {σ : Type}
    (wr : σ → List Nat → Except MBError σ) (out : σ) (p : List Nat)
    (enc : Encoding)
    (henc : enc = Base2 ∨ enc = Base16Upper ∨ enc = Base36 ∨ enc = Base36Upper ∨
            enc = Base58BTC ∨ enc = Base58Flickr ∨ enc = Base256Emoji) :
    encoderWriter.WriteCall wr (newEncoderWriter enc out) p =
      ((-1, some .UnsupportedAsWriter), newEncoderWriter enc out) := by
  rcases henc with rfl | rfl | rfl | rfl | rfl | rfl | rfl <;> rfl

/-- Witness for C3 at base58btc with the pure list sink. -/
theorem nonstreamable_write_rejected_witness :
    encoderWriter.WriteCall listSink (newEncoderWriter Base58BTC ([] : List Nat)) [1, 2] =
      ((-1, some .UnsupportedAsWriter), newEncoderWriter Base58BTC ([] : List Nat)) :=
  nonstreamable_write_rejected listSink [] [1, 2] Base58BTC
    (Or.inr (Or.inr (Or.inr (Or.inr (Or.inl rfl)))))

/-- Claim C8: Close invokes the wrapped adapter close operation exactly when
the adapter exposes one (flushing its buffered output to the sink); when it
exposes none — including the nil processor — Close returns nil and leaves
the heap untouched. -/
theorem close_dispatches_on_closer {σ : Type}
    (wr : σ → List Nat → Except MBError σ) (h : WriterHeap σ) :
    (∀ k, h.ew.processor = some k → hasCloser k = true →
      encoderWriter.CloseCall wr h = procCloseOp wr k h) ∧
    (∀ k, h.ew.processor = some k → hasCloser k = false →
      encoderWriter.CloseCall wr h = (none, h)) ∧
    (h.ew.processor = none → encoderWriter.CloseCall wr h = (none, h)) := by
  refine ⟨?_, ?_, ?_⟩
  · intro k hk hc
    simp [encoderWriter.CloseCall, hk, hc]
  · intro k hk hc
    simp [encoderWriter.CloseCall, hk, hc]
  · intro hk
    simp [encoderWriter.CloseCall, hk]

/-- Witness for C8: a base64 writer with one buffered byte; Close invokes
the adapter close operation. -/
theorem close_dispatches_on_closer_witness :
    encoderWriter.CloseCall listSink
      { ew := { enc := Base64, headerWritten := false,
                processor := some (.b64proc b64StdAlpha false) },
        procBuf := [1], sink := ([] : List Nat) } =
      procCloseOp listSink (.b64proc b64StdAlpha false)
        { ew := { enc := Base64, headerWritten := false,
                  processor := some (.b64proc b64StdAlpha false) },
          procBuf := [1], sink := ([] : List Nat) } :=
  (close_dispatches_on_closer listSink _).1 _ rfl rfl

/-- Claim C9: for every encoding — streamable or not, registered or not —
closing a freshly constructed writer with no prior Write emits nothing to
the sink (the tag is written only inside Write), while the whole-buffer
Encode of an empty buffer yields exactly the lone tag character for every
registered encoding. -/
theorem close_without_write_emits_nothing (enc : Encoding) :
    (∀ (σ : Type) (wr : σ → List Nat → Except MBError σ) (out : σ),
      encoderWriter.CloseCall wr (newEncoderWriter enc out) =
        (none, newEncoderWriter enc out)) ∧
    ((EncodingToStr enc).isSome = true →
      GoMultibase.Encode enc [] = .ok (utf8Bytes enc.toNat) ∧ utf8Bytes enc.toNat ≠ []) := by
  constructor
  · intro σ wr out
    unfold encoderWriter.CloseCall newEncoderWriter
    cases hpf : procFor enc with
    | none => simp [hpf]
    | some k => cases hk : hasCloser k <;> simp [hpf, hk, procCloseOp]
  · intro hreg
    obtain ⟨v, hv⟩ := Option.isSome_iff_exists.mp hreg
    rcases registered_cases enc v hv with
      rfl|rfl|rfl|rfl|rfl|rfl|rfl|rfl|rfl|rfl|rfl|rfl|rfl|rfl|rfl|rfl|rfl|rfl|rfl|rfl|rfl <;>
      exact ⟨rfl, by decide⟩

/-- Witness for C9 at base64 with the pure list sink. -/
theorem close_without_write_emits_nothing_witness :
    encoderWriter.CloseCall listSink (newEncoderWriter Base64 ([] : List Nat)) =
      (none, newEncoderWriter Base64 ([] : List Nat)) ∧
    GoMultibase.Encode Base64 [] = .ok (utf8Bytes (Base64 : Encoding).toNat) ∧
    utf8Bytes (Base64 : Encoding).toNat ≠ [] :=
  ⟨(close_without_write_emits_nothing Base64).1 (List Nat) listSink [],
   ((close_without_write_emits_nothing Base64).2 rfl).1,
   ((close_without_write_emits_nothing Base64).2 rfl).2⟩

/-- Claim C10: when the sink fails on the tag-byte write, Write returns
count 0 together with that sink error, and the heap — sink, adapter buffer
and struct — is unchanged: no payload byte reaches the incremental codec. -/
theorem write_sink_error_on_tag {σ : Type}
    (wr : σ → List Nat → Except MBError σ) (h : WriterHeap σ) (p : List Nat)
    (k : ProcKind) (err : MBError)
    (hk : h.ew.processor = some k)
    (hh : h.ew.headerWritten = false)
    (hw : wr h.sink [goByte h.ew.enc] = .error err) :
    encoderWriter.WriteCall wr h p = ((0, some err), h) := by
  simp [encoderWriter.WriteCall, hk, hh, hw]

/-- A sink whose write always fails, for the C10 witness. -/
def brokenSink : Unit → List Nat → Except MBError Unit :=
  fun _ _ => .error (.SinkError "sink failed")

/-- Witness for C10: an Identity writer over the always-failing sink. -/
theorem write_sink_error_on_tag_witness :
    encoderWriter.WriteCall brokenSink (newEncoderWriter Identity ()) [5] =
      ((0, some (.SinkError "sink failed")), newEncoderWriter Identity ()) :=
  write_sink_error_on_tag brokenSink (newEncoderWriter Identity ()) [5]
    .identProc (.SinkError "sink failed") rfl rfl rfl

/-- Claim C1 fails on the code: Write is declared with a value receiver
(func (ew encoderWriter) Write, encoder.go line 134), so the assignment
ew.headerWritten = true of line 143 mutates a discarded copy. Two
successful writes on an Identity writer put the 0x00 tag byte on the sink
twice — once per call — and the heap flag is still false afterwards,
violating the tag-exactly-once requirement. -/
theorem tag_rewritten_on_second_write :
    (let r1 := encoderWriter.WriteCall listSink (newEncoderWriter Identity ([] : List Nat)) [10]
     let r2 := encoderWriter.WriteCall listSink r1.2 [20]
     r1.1 = (1, none) ∧ r2.1 = (1, none) ∧
     r2.2.sink = [0, 10, 0, 20] ∧
     r2.2.sink.count 0 = 2 ∧
     r2.2.ew.headerWritten = false) := by
  decide

/-- Claim C2 fails on the code for the same reason as C1: chunked streaming
repeats the tag before every chunk. Writing the buffer [1,2] as the chunks
[1] then [2] through the Identity writer and closing yields the sink bytes
[0,1,0,2], while the single whole-buffer Encode yields [0,1,2]. -/
theorem chunked_streaming_differs_from_encode :
    (let r1 := encoderWriter.WriteCall listSink (newEncoderWriter Identity ([] : List Nat)) [1]
     let r2 := encoderWriter.WriteCall listSink r1.2 [2]
     let rc := encoderWriter.CloseCall listSink r2.2
     r1.1.2 = none ∧ r2.1.2 = none ∧ rc.1 = none ∧
     rc.2.sink = [0, 1, 0, 2] ∧
     GoMultibase.Encode Identity [1, 2] = .ok [0, 1, 2] ∧
     rc.2.sink ≠ [0, 1, 2]) := by
  exact ⟨rfl, rfl, rfl, rfl, rfl, by decide⟩


end GoMultibase
